import Mathlib

/-!
Verification of the flip-factory-backend coin ledger (src/app.py).

The service keeps two SQLite tables:
  users(user_id TEXT PRIMARY KEY, monthly_coin_earned, monthly_coin_redeemed, last_reset)
  pending_redemptions(id INTEGER PRIMARY KEY AUTOINCREMENT, user_id, coins_redeemed,
                      usd_value REAL, requested_at, status DEFAULT 'pending')

We embed the tables as in-memory lists (rows in insertion order, matching SQLite
rowid order for these tables) and each Flask handler as a pure function taking the
inputs it reads from the request plus the timestamp strings it obtains from the
clock, returning the response outcome together with the new database state.

Modelling notes, all taken from the source:
  * `user_id` is a nullable TEXT column, so keys are `Option String`; SQL equality
    `user_id = ?` is never true when either side is NULL, which `sqlEq` captures.
    SQLite permits several NULL keys in a TEXT PRIMARY KEY column, hence a list of
    rows rather than a finite map.
  * Python truthiness `if not user_id` rejects both a missing id and the empty
    string; `truthy` captures this.  For the redemption id, `if not redemption_id`
    rejects both a missing id and the integer 0.
  * Python integers are unbounded, so counters are `Int`; the REAL `usd` amount is
    modelled as `ℚ` and `int(x)` (truncation toward zero) as `pyInt`.
  * Monetary formatting of responses (`f"..."` strings) is presentation only; the
    handlers here return the underlying computed values.
-/

namespace FlipFactory

/-- Constant `MAX_MONTHLY_COINS = 50_000_000` from src/app.py line 10. -/
def MAX_MONTHLY_COINS : Int := 50000000

/-- Constant `COINS_PER_DOLLAR = 1_000_000` from src/app.py line 122. -/
def COINS_PER_DOLLAR : ℚ := 1000000

/-- A nullable `user_id` TEXT column value; `none` is SQL NULL. -/
abbrev UserId := Option String

/-- SQL equality on nullable TEXT values: NULL compares false to everything. -/
def sqlEq : UserId → UserId → Bool
  | some a, some b => a == b
  | _, _ => false

/-- Python truthiness of the `user_id` request field: `None` and `""` are falsy. -/
def truthy : UserId → Bool
  | none => false
  | some s => !(s == "")

/-- Python `int()` on a rational: truncation toward zero. -/
def pyInt (q : ℚ) : Int :=
  if q < 0 then ⌈q⌉ else ⌊q⌋

/-- One row of the `users` table (besides its key). -/
structure Account where
  monthly_coin_earned : Int
  monthly_coin_redeemed : Int
  last_reset : String
deriving DecidableEq

/-- The `status` column of `pending_redemptions`: 'pending', 'paid' or 'expired'. -/
inductive Status
  | pending
  | paid
  | expired
deriving DecidableEq

/-- One row of the `pending_redemptions` table. -/
structure RedemptionRequest where
  id : Int
  user_id : UserId
  coins_redeemed : Int
  usd_value : ℚ
  requested_at : String
  status : Status
deriving DecidableEq

/-- The whole database: both tables plus the AUTOINCREMENT counter. -/
structure DB where
  users : List (UserId × Account)
  redemptions : List RedemptionRequest
  nextId : Int
deriving DecidableEq

/-- The freshly initialised database (`init_db`): empty tables, ids start at 1. -/
def initDB : DB := ⟨[], [], 1⟩

/-- Outcomes of the non-2xx responses the handlers can produce. -/
inductive ApiError
  | invalidRequest
  | capExceeded
  | insufficientBalance
  | missingId
deriving DecidableEq

/-- Function `get_or_create_user` (src/app.py lines 56-71): `SELECT` by key, and on a miss
`INSERT` a row with zeroed counters and `last_reset = today`, returning the row. -/
def get_or_create_user (uid : UserId) (today : String) (db : DB) : Account × DB :=
  match db.users.find? (fun p => sqlEq p.1 uid) with
  | some p => (p.2, db)
  | none =>
    let a : Account := ⟨0, 0, today⟩
    (a, { db with users := db.users ++ [(uid, a)] })

/-- Statement `UPDATE users SET ... WHERE user_id = ?`: apply `f` to every row whose key
compares SQL-equal to `uid`. -/
def updateUsers (uid : UserId) (f : Account → Account) (db : DB) : DB :=
  { db with users := db.users.map (fun p => if sqlEq p.1 uid = true then (p.1, f p.2) else p) }

/-- Handler `coin_earn` (src/app.py lines 77-92): validate, get-or-create, add to
`monthly_coin_earned`. -/
def coin_earn (uid : UserId) (coins : Int) (today : String) (db : DB) :
    Except ApiError Int × DB :=
  if truthy uid = false ∨ coins ≤ 0 then (.error .invalidRequest, db)
  else
    let db1 := (get_or_create_user uid today db).2
    let db2 := updateUsers uid
      (fun a => { a with monthly_coin_earned := a.monthly_coin_earned + coins }) db1
    (.ok coins, db2)

/-- Handler `coin_redeem` (src/app.py lines 93-113): validate, get-or-create, cap check
(no balance check), add to `monthly_coin_redeemed`, return the credited dollars
`requested_coins / 1_000_000`. -/
def coin_redeem (uid : UserId) (requested_coins : Int) (today : String) (db : DB) :
    Except ApiError ℚ × DB :=
  if truthy uid = false ∨ requested_coins ≤ 0 then (.error .invalidRequest, db)
  else
    let g := get_or_create_user uid today db
    if MAX_MONTHLY_COINS < g.1.monthly_coin_redeemed + requested_coins then
      (.error .capExceeded, g.2)
    else
      let db2 := updateUsers uid
        (fun a => { a with monthly_coin_redeemed := a.monthly_coin_redeemed + requested_coins }) g.2
      (.ok ((requested_coins : ℚ) / COINS_PER_DOLLAR), db2)

/-- Handler `coin_exchange` (src/app.py lines 115-148): bounds check on `usd` first (before
any store access), then get-or-create, balance check, cap check, and atomically add
`coins_required = int(usd * 1_000_000)` to `monthly_coin_redeemed` and insert a
pending `RedemptionRequest` row. -/
def coin_exchange (uid : UserId) (usd : ℚ) (today now : String) (db : DB) :
    Except ApiError ℚ × DB :=
  let coins_required : Int := pyInt (usd * COINS_PER_DOLLAR)
  if usd ≤ 0 ∨ 100 < usd then (.error .invalidRequest, db)
  else
    let g := get_or_create_user uid today db
    let available := g.1.monthly_coin_earned - g.1.monthly_coin_redeemed
    if available < coins_required then (.error .insufficientBalance, g.2)
    else if MAX_MONTHLY_COINS < g.1.monthly_coin_redeemed + coins_required then
      (.error .capExceeded, g.2)
    else
      let db2 := updateUsers uid
        (fun a => { a with monthly_coin_redeemed := a.monthly_coin_redeemed + coins_required }) g.2
      let r : RedemptionRequest := ⟨db2.nextId, uid, coins_required, usd, now, .pending⟩
      (.ok usd, { db2 with redemptions := db2.redemptions ++ [r], nextId := db2.nextId + 1 })

/-- Handler `mark_redeem_paid` (src/app.py lines 173-187): reject a falsy id (missing or 0),
otherwise `UPDATE pending_redemptions SET status='paid' WHERE id=?` — note: no
condition on the current status — and report success even when no row matched. -/
def mark_redeem_paid (rid : Option Int) (db : DB) : Except ApiError Int × DB :=
  match rid with
  | none => (.error .missingId, db)
  | some i =>
    if i = 0 then (.error .missingId, db)
    else
      let rs := db.redemptions.map (fun r => if r.id = i then { r with status := .paid } else r)
      (.ok i, { db with redemptions := rs })

/-- Handler `expire_old_redemptions` (src/app.py lines 210-223): set to 'expired' every row
that is still 'pending' and whose `requested_at` is lexicographically below the
caller-computed cutoff (SQLite TEXT comparison on the timestamp strings). -/
def expire_old_redemptions (cutoff : String) (db : DB) : Except ApiError String × DB :=
  let rs := db.redemptions.map (fun r =>
    if r.status = .pending ∧ r.requested_at < cutoff then { r with status := .expired } else r)
  (.ok cutoff, { db with redemptions := rs })

/-- Handler `reset_monthly` (src/app.py lines 245-255): unconditionally zero both counters of
every account and stamp `last_reset = today`. -/
def reset_monthly (today : String) (db : DB) : Except ApiError Unit × DB :=
  (.ok (), { db with users := db.users.map (fun p => (p.1, ⟨0, 0, today⟩)) })

/-- Handler `coin_status` (src/app.py lines 225-241): validate the id, then get-or-create
(read path that can create an account) and report the counters. -/
def coin_status (uid : UserId) (today : String) (db : DB) :
    Except ApiError (Int × Int) × DB :=
  if truthy uid = false then (.error .invalidRequest, db)
  else
    let g := get_or_create_user uid today db
    (.ok (g.1.monthly_coin_earned, g.1.monthly_coin_redeemed), g.2)

/-- A request to one of the state-changing or account-creating endpoints, with the
timestamp strings the handler reads from the clock carried as data. -/
inductive Op
  | earn (uid : UserId) (coins : Int) (today : String)
  | redeem (uid : UserId) (coins : Int) (today : String)
  | exchange (uid : UserId) (usd : ℚ) (today now : String)
  | markPaid (rid : Option Int)
  | expireOld (cutoff : String)
  | resetMonthly (today : String)
  | statusQ (uid : UserId) (today : String)

/-- The state transition performed by one request (response discarded). -/
def applyOp (db : DB) : Op → DB
  | .earn uid c t => (coin_earn uid c t db).2
  | .redeem uid c t => (coin_redeem uid c t db).2
  | .exchange uid usd t n => (coin_exchange uid usd t n db).2
  | .markPaid rid => (mark_redeem_paid rid db).2
  | .expireOld cutoff => (expire_old_redemptions cutoff db).2
  | .resetMonthly t => (reset_monthly t db).2
  | .statusQ uid t => (coin_status uid t db).2

/-- The database reached from a fresh install after a sequence of requests. -/
def run (ops : List Op) : DB :=
  ops.foldl applyOp initDB

/-! ### CSV export (`export_csv`, src/app.py lines 189-208)

The handler builds one Python string: a fixed header line, then for every row of
`pending_redemptions` the row's six columns passed through `str` and joined with
commas, each row terminated by a newline.  Strings are lists of characters here, so
concatenation of Python strings is list append.  `str` of the REAL `usd_value`
column (Python float formatting) is abstracted as a rendering parameter `fr`. -/

/-- Python `str` of the nullable TEXT `user_id` column: `str(None) = "None"`. -/
def userStr : UserId → String
  | none => "None"
  | some s => s

/-- Python `str` of the TEXT `status` column values. -/
def statusStr : Status → String
  | .pending => "pending"
  | .paid => "paid"
  | .expired => "expired"

/-- The six `str`-rendered columns of one exported row, in SELECT order. -/
def rowFields (fr : ℚ → String) (r : RedemptionRequest) : List String :=
  [toString r.id, userStr r.user_id, toString r.coins_redeemed, fr r.usd_value,
    r.requested_at, statusStr r.status]

/-- Join character lists with a separator character (Python `sep.join`). -/
def joinCh (c : Char) : List (List Char) → List Char
  | [] => []
  | [x] => x
  | x :: y :: ys => x ++ c :: joinCh c (y :: ys)

/-- Split a character list at every occurrence of the separator character. -/
def splitCh (c : Char) : List Char → List (List Char)
  | [] => [[]]
  | x :: xs =>
    let r := splitCh c xs
    if x = c then [] :: r else (x :: r.headI) :: r.tail

/-- The fixed header line of the export (without its newline). -/
def csvHeader : String := "id,user_id,coins_redeemed,usd_value,requested_at,status"

/-- Handler `export_csv`: header plus one comma-joined, newline-terminated line per row. -/
def export_csv (fr : ℚ → String) (db : DB) : String :=
  ⟨csvHeader.data ++ '\n' ::
    (db.redemptions.map (fun r => joinCh ',' ((rowFields fr r).map String.data) ++ ['\n'])).flatten⟩

/-- The parse procedure of the round-trip claim: split the document on newlines,
drop the fixed header line and the empty segment after the final newline, and
split every remaining line on commas. -/
def parseCSV (s : String) : List (List String) :=
  (((splitCh '\n' s.data).drop 1).dropLast).map
    (fun l => (splitCh ',' l).map String.mk)

/-! ### Basic lemmas about keys and the store helpers -/

lemma sqlEq_none_right (u : UserId) : sqlEq u none = false := by
  cases u <;> rfl

lemma sqlEq_true_iff {a b : UserId} : sqlEq a b = true ↔ ∃ s, a = some s ∧ b = some s := by
  cases a <;> cases b <;> simp [sqlEq]
  exact ⟨fun h => h ▸ rfl, fun h => h.symm⟩

lemma sqlEq_symm (a b : UserId) : sqlEq a b = sqlEq b a := by
  cases a <;> cases b <;> simp [sqlEq]
  exact ⟨fun h => h.symm, fun h => h.symm⟩

lemma sqlEq_congr {a b u : UserId} (h1 : sqlEq a u = true) (h2 : sqlEq b u = true) :
    sqlEq a b = true := by
  obtain ⟨s, rfl, rfl⟩ := sqlEq_true_iff.1 h1
  obtain ⟨t, rfl, ht⟩ := sqlEq_true_iff.1 h2
  cases ht
  simp [sqlEq]

lemma truthy_sqlEq_self {u : UserId} (h : truthy u = true) : sqlEq u u = true := by
  cases u with
  | none => simp [truthy] at h
  | some s => simp [sqlEq]

/-- The `users` table never holds two distinct rows whose keys compare SQL-equal
(uniqueness of the TEXT PRIMARY KEY; NULL keys never compare equal to anything). -/
def Keyed (l : List (UserId × Account)) : Prop :=
  l.Pairwise (fun p q => sqlEq p.1 q.1 = false)

lemma Keyed.unique {l : List (UserId × Account)} (hk : Keyed l) {p q : UserId × Account}
    (hp : p ∈ l) (hq : q ∈ l) {u : UserId}
    (hpu : sqlEq p.1 u = true) (hqu : sqlEq q.1 u = true) : p = q := by
  induction l with
  | nil => cases hp
  | cons x xs ih =>
    rw [Keyed, List.pairwise_cons] at hk
    rcases List.mem_cons.1 hp with rfl | hp1 <;> rcases List.mem_cons.1 hq with rfl | hq1
    · rfl
    · exact absurd (sqlEq_congr hpu hqu) (by simp [hk.1 q hq1])
    · exact absurd (sqlEq_congr hqu hpu) (by simp [hk.1 p hp1])
    · exact ih hk.2 hp1 hq1

/-- Characterisation of `get_or_create_user`: either the key was found and the
database is untouched, or no row matched and a zeroed row was appended. -/
lemma get_or_create_user_spec (uid : UserId) (t : String) (db : DB) :
    (∃ p ∈ db.users, sqlEq p.1 uid = true ∧ (get_or_create_user uid t db).1 = p.2 ∧
      (get_or_create_user uid t db).2 = db) ∨
    ((∀ p ∈ db.users, sqlEq p.1 uid = false) ∧
      (get_or_create_user uid t db).1 = ⟨0, 0, t⟩ ∧
      (get_or_create_user uid t db).2 =
        { db with users := db.users ++ [(uid, ⟨0, 0, t⟩)] }) := by
  unfold get_or_create_user
  cases hf : db.users.find? (fun p => sqlEq p.1 uid) with
  | none =>
    right
    refine ⟨fun p hp => ?_, rfl, rfl⟩
    have := List.find?_eq_none.1 hf p hp
    simpa using this
  | some p =>
    left
    exact ⟨p, List.mem_of_find?_eq_some hf, by simpa using List.find?_some hf, rfl, rfl⟩

lemma get_or_create_user_redemptions (uid : UserId) (t : String) (db : DB) :
    (get_or_create_user uid t db).2.redemptions = db.redemptions := by
  rcases get_or_create_user_spec uid t db with ⟨p, _, _, _, h⟩ | ⟨_, _, h⟩ <;> rw [h]

lemma get_or_create_user_nextId (uid : UserId) (t : String) (db : DB) :
    (get_or_create_user uid t db).2.nextId = db.nextId := by
  rcases get_or_create_user_spec uid t db with ⟨p, _, _, _, h⟩ | ⟨_, _, h⟩ <;> rw [h]

/-- Any row of the post-`get_or_create_user` table whose key matches `uid` carries
exactly the account the call returned (uses key uniqueness). -/
lemma get_or_create_user_row (uid : UserId) (t : String) {db : DB} (hk : Keyed db.users)
    {q : UserId × Account} (hq : q ∈ (get_or_create_user uid t db).2.users)
    (hqu : sqlEq q.1 uid = true) : q.2 = (get_or_create_user uid t db).1 := by
  rcases get_or_create_user_spec uid t db with ⟨p, hp, hpu, h1, h2⟩ | ⟨hnone, h1, h2⟩
  · rw [h2] at hq
    rw [h1]
    exact congrArg Prod.snd (hk.unique hq hp hqu hpu)
  · rw [h2] at hq
    rcases List.mem_append.1 hq with hq | hq
    · exact absurd (hnone q hq) (by simp [hqu])
    · rw [h1]
      cases List.mem_singleton.1 hq
      rfl

lemma Keyed.get_or_create_keyed (uid : UserId) (t : String) {db : DB} (hk : Keyed db.users) :
    Keyed (get_or_create_user uid t db).2.users := by
  rcases get_or_create_user_spec uid t db with ⟨p, _, _, _, h⟩ | ⟨hnone, _, h⟩
  · rw [h]; exact hk
  · rw [h]
    refine List.pairwise_append.2 ⟨hk, List.pairwise_singleton _ _, ?_⟩
    intro p hp q hq
    cases List.mem_singleton.1 hq
    exact hnone p hp

lemma mem_updateUsers {uid : UserId} {f : Account → Account} {db : DB}
    {q : UserId × Account} (hq : q ∈ (updateUsers uid f db).users) :
    ∃ p ∈ db.users, q = if sqlEq p.1 uid = true then (p.1, f p.2) else p := by
  rcases List.mem_map.1 hq with ⟨p, hp, rfl⟩
  exact ⟨p, hp, rfl⟩

lemma Keyed.updateUsers (uid : UserId) (f : Account → Account) {db : DB}
    (hk : Keyed db.users) : Keyed (updateUsers uid f db).users := by
  refine List.Pairwise.map _ (fun p q h => ?_) hk
  have h1 : (if sqlEq p.1 uid = true then (p.1, f p.2) else p).1 = p.1 := by
    split <;> rfl
  have h2 : (if sqlEq q.1 uid = true then (q.1, f q.2) else q).1 = q.1 := by
    split <;> rfl
  rw [h1, h2]
  exact h

lemma updateUsers_redemptions (uid : UserId) (f : Account → Account) (db : DB) :
    (updateUsers uid f db).redemptions = db.redemptions := rfl

lemma pyInt_nonneg {q : ℚ} (h : 0 < q) : 0 ≤ pyInt q := by
  rw [pyInt, if_neg (by linarith)]
  exact Int.le_floor.2 (by exact_mod_cast h.le)

/-! ### The monthly-cap invariant (claim C1) -/

/-- Every account's redeemed counter lies in `[0, MAX_MONTHLY_COINS]`. -/
def CapOK (db : DB) : Prop :=
  ∀ p ∈ db.users, 0 ≤ p.2.monthly_coin_redeemed ∧
    p.2.monthly_coin_redeemed ≤ MAX_MONTHLY_COINS

/-- The structural invariant maintained by every handler. -/
def Inv (db : DB) : Prop := Keyed db.users ∧ CapOK db

lemma CapOK.get_or_create_capok (uid : UserId) (t : String) {db : DB} (h : CapOK db) :
    CapOK (get_or_create_user uid t db).2 := by
  rcases get_or_create_user_spec uid t db with ⟨p, _, _, _, h2⟩ | ⟨_, _, h2⟩
  · rw [h2]; exact h
  · rw [h2]
    intro q hq
    rcases List.mem_append.1 hq with hq | hq
    · exact h q hq
    · cases List.mem_singleton.1 hq
      exact ⟨le_refl 0, by norm_num [MAX_MONTHLY_COINS]⟩

lemma Inv.get_or_create_inv (uid : UserId) (t : String) {db : DB} (h : Inv db) :
    Inv (get_or_create_user uid t db).2 :=
  ⟨h.1.get_or_create_keyed uid t, h.2.get_or_create_capok uid t⟩

/-- Bound preservation for the write performed by Redeem and Exchange: add `c ≥ 0`
coins to the redeemed counter of the account fetched by `get_or_create_user`,
under the cap check the handlers perform on the fetched row. -/
lemma CapOK.update_redeemed {db : DB} (uid : UserId) (t : String) (c : Int)
    (hinv : Inv db) (hc : 0 ≤ c)
    (hbound : (get_or_create_user uid t db).1.monthly_coin_redeemed + c ≤ MAX_MONTHLY_COINS) :
    CapOK (updateUsers uid
      (fun a => { a with monthly_coin_redeemed := a.monthly_coin_redeemed + c })
      (get_or_create_user uid t db).2) := by
  intro q hq
  rcases mem_updateUsers hq with ⟨p, hp, rfl⟩
  obtain ⟨k, a⟩ := p
  by_cases hkey : sqlEq k uid = true
  · have hrow := get_or_create_user_row uid t hinv.1 hp hkey
    have hold := (hinv.2.get_or_create_capok uid t) (k, a) hp
    rw [if_pos hkey]
    dsimp only at hrow hold ⊢
    rw [hrow] at hold ⊢
    omega
  · rw [if_neg hkey]
    exact (hinv.2.get_or_create_capok uid t) (k, a) hp

/-- Earn only writes the earned counter, so the redeemed bounds survive. -/
lemma CapOK.update_earned {db : DB} (uid : UserId) (c : Int)
    (h : CapOK db) :
    CapOK (updateUsers uid
      (fun a => { a with monthly_coin_earned := a.monthly_coin_earned + c }) db) := by
  intro q hq
  rcases mem_updateUsers hq with ⟨p, hp, rfl⟩
  split
  · exact h p hp
  · exact h p hp

lemma Inv.earn_step {db : DB} (uid : UserId) (t : String) (c : Int) (hinv : Inv db) :
    Inv (updateUsers uid
      (fun a => { a with monthly_coin_earned := a.monthly_coin_earned + c })
      (get_or_create_user uid t db).2) :=
  ⟨(hinv.1.get_or_create_keyed uid t).updateUsers uid _,
    CapOK.update_earned uid c (hinv.2.get_or_create_capok uid t)⟩

lemma Inv.redeem_step {db : DB} (uid : UserId) (t : String) (c : Int) (hinv : Inv db)
    (hc : 0 ≤ c)
    (hbound : (get_or_create_user uid t db).1.monthly_coin_redeemed + c ≤ MAX_MONTHLY_COINS) :
    Inv (updateUsers uid
      (fun a => { a with monthly_coin_redeemed := a.monthly_coin_redeemed + c })
      (get_or_create_user uid t db).2) :=
  ⟨(hinv.1.get_or_create_keyed uid t).updateUsers uid _,
    CapOK.update_redeemed uid t c hinv hc hbound⟩

/-- One request preserves the structural invariant, whatever its inputs. -/
lemma Inv.applyOp_inv (op : Op) {db : DB} (hinv : Inv db) : Inv (applyOp db op) := by
  cases op with
  | earn uid c t =>
    show Inv (coin_earn uid c t db).2
    rw [coin_earn]
    dsimp only
    split
    · exact hinv
    · exact hinv.earn_step uid t c
  | redeem uid c t =>
    show Inv (coin_redeem uid c t db).2
    rw [coin_redeem]
    dsimp only
    split
    · exact hinv
    · split
      · exact hinv.get_or_create_inv uid t
      · rename_i hcap
        exact hinv.redeem_step uid t c (by omega) (by omega)
  | exchange uid usd t n =>
    show Inv (coin_exchange uid usd t n db).2
    rw [coin_exchange]
    dsimp only
    split
    · exact hinv
    · rename_i hval
      split
      · exact hinv.get_or_create_inv uid t
      · split
        · exact hinv.get_or_create_inv uid t
        · rename_i hbal hcap
          have husd : 0 < usd := by
            rcases not_or.1 hval with ⟨h1, _⟩
            exact lt_of_not_le h1
          have hc : 0 ≤ pyInt (usd * COINS_PER_DOLLAR) :=
            pyInt_nonneg (mul_pos husd (by norm_num [COINS_PER_DOLLAR]))
          exact hinv.redeem_step uid t _ hc (by omega)
  | markPaid rid =>
    cases rid with
    | none => exact hinv
    | some i =>
      show Inv (mark_redeem_paid (some i) db).2
      rw [mark_redeem_paid]
      dsimp only
      split
      · exact hinv
      · exact hinv
  | expireOld cutoff =>
    exact hinv
  | resetMonthly t =>
    refine ⟨?_, ?_⟩
    · exact List.Pairwise.map _ (fun p q h => h) hinv.1
    · intro q hq
      rcases List.mem_map.1 hq with ⟨p, hp, rfl⟩
      exact ⟨le_refl 0, by norm_num [MAX_MONTHLY_COINS]⟩
  | statusQ uid t =>
    show Inv (coin_status uid t db).2
    rw [coin_status]
    dsimp only
    split
    · exact hinv
    · exact hinv.get_or_create_inv uid t

lemma run_inv (ops : List Op) : Inv (run ops) := by
  show Inv (ops.foldl applyOp initDB)
  have h : Inv initDB := ⟨List.Pairwise.nil, fun p hp => by cases hp⟩
  revert h
  generalize initDB = db
  induction ops generalizing db with
  | nil => exact fun h => h
  | cons op ops ih => exact fun h => ih _ (h.applyOp_inv op)

/-! ### Claim C1 -/

/-- C1: after every sequence of operations (Earn, Redeem, Exchange, ResetMonthly,
MarkPaid, ExpireOld, Status/account creation) applied to a fresh store, every
account satisfies `0 ≤ monthly_coin_redeemed ≤ MAX_MONTHLY_COINS`: Redeem and
Exchange reject requests that would push past the cap, ResetMonthly zeroes the
counter, and newly created accounts start at 0. -/
theorem c1_redeemed_within_cap (ops : List Op) :
    ∀ p ∈ (run ops).users, 0 ≤ p.2.monthly_coin_redeemed ∧
      p.2.monthly_coin_redeemed ≤ MAX_MONTHLY_COINS :=
  (run_inv ops).2

/-- Witness for C1 at a concrete run: one Earn followed by one Redeem. -/
theorem c1_redeemed_within_cap_witness :
    0 ≤ (Account.mk 5 3 "d").monthly_coin_redeemed ∧
      (Account.mk 5 3 "d").monthly_coin_redeemed ≤ MAX_MONTHLY_COINS :=
  c1_redeemed_within_cap [Op.earn (some "u") 5 "d", Op.redeem (some "u") 3 "d"]
    (some "u", Account.mk 5 3 "d") (by decide)

/-! ### Claim C2 -/

/-- Every row stored under key `uid` has `monthly_coin_redeemed ≤ monthly_coin_earned`. -/
def BalOK (uid : UserId) (db : DB) : Prop :=
  ∀ a : Account, (uid, a) ∈ db.users →
    a.monthly_coin_redeemed ≤ a.monthly_coin_earned

lemma BalOK.get_or_create_balok {uid : UserId} (u : UserId) (t : String) {db : DB}
    (h : BalOK uid db) : BalOK uid (get_or_create_user u t db).2 := by
  rcases get_or_create_user_spec u t db with ⟨p, _, _, _, h2⟩ | ⟨_, _, h2⟩
  · rw [h2]; exact h
  · rw [h2]
    intro a ha
    rcases List.mem_append.1 ha with ha | ha
    · exact h a ha
    · cases List.mem_singleton.1 ha
      exact le_refl 0

/-- Redeem is the only operation that can break `BalOK uid`; any other request, or
a Redeem addressed to a different key, preserves it. -/
lemma BalOK.applyOp_balok {uid : UserId} {db : DB} (op : Op) (hinv : Inv db)
    (hP : BalOK uid db)
    (hop : ∀ u c t, op = Op.redeem u c t → sqlEq u uid = false) :
    BalOK uid (applyOp db op) := by
  cases op with
  | earn u c t =>
    show BalOK uid (coin_earn u c t db).2
    rw [coin_earn]
    dsimp only
    split
    · exact hP
    · rename_i hval
      intro a ha
      rcases mem_updateUsers ha with ⟨p, hp, heq⟩
      have hrow := (hP.get_or_create_balok u t) p.2
      by_cases hkey : sqlEq p.1 u = true
      · rw [if_pos hkey] at heq
        have hk : p.1 = uid := congrArg Prod.fst heq.symm
        have ha2 : a = { p.2 with monthly_coin_earned := p.2.monthly_coin_earned + c } :=
          congrArg Prod.snd heq
        have hold : p.2.monthly_coin_redeemed ≤ p.2.monthly_coin_earned := by
          refine hP.get_or_create_balok u t p.2 ?_
          rw [← hk]
          exact hp
        rw [ha2]
        dsimp only
        omega
      · rw [if_neg hkey] at heq
        refine hP.get_or_create_balok u t a ?_
        rw [heq]
        exact hp
  | redeem u c t =>
    have hu : sqlEq u uid = false := hop u c t rfl
    show BalOK uid (coin_redeem u c t db).2
    rw [coin_redeem]
    dsimp only
    split
    · exact hP
    · split
      · exact hP.get_or_create_balok u t
      · intro a ha
        rcases mem_updateUsers ha with ⟨p, hp, heq⟩
        by_cases hkey : sqlEq p.1 u = true
        · rw [if_pos hkey] at heq
          have hk : p.1 = uid := congrArg Prod.fst heq.symm
          rw [hk] at hkey
          have h2 : sqlEq u uid = true := (sqlEq_symm u uid).trans hkey
          rw [hu] at h2
          cases h2
        · rw [if_neg hkey] at heq
          refine hP.get_or_create_balok u t a ?_
          rw [heq]
          exact hp
  | exchange u usd t n =>
    show BalOK uid (coin_exchange u usd t n db).2
    rw [coin_exchange]
    dsimp only
    split
    · exact hP
    · split
      · exact hP.get_or_create_balok u t
      · split
        · exact hP.get_or_create_balok u t
        · rename_i hbal hcap
          intro a ha
          replace ha : (uid, a) ∈ (updateUsers u
              (fun a => { a with monthly_coin_redeemed :=
                a.monthly_coin_redeemed + pyInt (usd * COINS_PER_DOLLAR) })
              (get_or_create_user u t db).2).users := ha
          rcases mem_updateUsers ha with ⟨p, hp, heq⟩
          by_cases hkey : sqlEq p.1 u = true
          · rw [if_pos hkey] at heq
            have hrow := get_or_create_user_row u t hinv.1 hp hkey
            have ha2 : a = { p.2 with monthly_coin_redeemed :=
                p.2.monthly_coin_redeemed + pyInt (usd * COINS_PER_DOLLAR) } :=
              congrArg Prod.snd heq
            rw [ha2, hrow]
            dsimp only
            omega
          · rw [if_neg hkey] at heq
            refine hP.get_or_create_balok u t a ?_
            rw [heq]
            exact hp
  | markPaid rid =>
    cases rid with
    | none => exact hP
    | some i =>
      show BalOK uid (mark_redeem_paid (some i) db).2
      rw [mark_redeem_paid]
      dsimp only
      split
      · exact hP
      · exact hP
  | expireOld cutoff =>
    exact hP
  | resetMonthly t =>
    intro a ha
    rcases List.mem_map.1 ha with ⟨p, hp, heq⟩
    have h2 : a = (⟨0, 0, t⟩ : Account) := (congrArg Prod.snd heq).symm
    rw [h2]
  | statusQ u t =>
    show BalOK uid (coin_status u t db).2
    rw [coin_status]
    dsimp only
    split
    · exact hP
    · exact hP.get_or_create_balok u t

/-- C2: from a fresh store, if no Redeem request ever addresses key `uid`
(so the account's redeemed counter can only have grown through successful
Exchange operations), then `monthly_coin_redeemed ≤ monthly_coin_earned` holds
for that account after the whole run: Exchange requires
`coins_required ≤ monthly_coin_earned - monthly_coin_redeemed` and otherwise
fails with InsufficientBalance. -/
theorem c2_exchange_only_keeps_redeemed_le_earned (ops : List Op) (uid : UserId)
    (hno : ∀ u c t, Op.redeem u c t ∈ ops → sqlEq u uid = false) :
    ∀ a : Account, (uid, a) ∈ (run ops).users →
      a.monthly_coin_redeemed ≤ a.monthly_coin_earned := by
  show BalOK uid (run ops)
  have h0 : Inv initDB ∧ BalOK uid initDB :=
    ⟨⟨List.Pairwise.nil, fun p hp => by cases hp⟩, fun a ha => by cases ha⟩
  show BalOK uid (ops.foldl applyOp initDB)
  revert h0 hno
  generalize initDB = db
  induction ops generalizing db with
  | nil => exact fun _ h => h.2
  | cons op ops ih =>
    intro hno h
    refine ih _ (fun u c t hmem => hno u c t (List.mem_cons_of_mem op hmem)) ?_
    exact ⟨h.1.applyOp_inv op, h.2.applyOp_balok op h.1
      (fun u c t heq => hno u c t (heq ▸ List.mem_cons_self op ops))⟩

/-- Witness for C2: earn 2, then exchange nothing else; redeemed 0 ≤ earned 2. -/
theorem c2_exchange_only_keeps_redeemed_le_earned_witness :
    (Account.mk 2 0 "d").monthly_coin_redeemed ≤ (Account.mk 2 0 "d").monthly_coin_earned :=
  c2_exchange_only_keeps_redeemed_le_earned [Op.earn (some "u") 2 "d"] (some "u")
    (fun u c t hmem => by simp at hmem) (Account.mk 2 0 "d") (by decide)

/-! ### Claim C3 -/

/-- C3: Redeem performs the cap check but no balance check.  For any store, any
truthy user id and any `requested_coins > 0` with
`monthly_coin_redeemed + requested_coins ≤ MAX_MONTHLY_COINS` on the fetched
account, the call succeeds — even when `requested_coins` exceeds the available
balance `monthly_coin_earned - monthly_coin_redeemed` — returning credited USD
`requested_coins / COINS_PER_DOLLAR` and adding `requested_coins` to the
account's `monthly_coin_redeemed`. -/
theorem c3_redeem_skips_balance_check (db : DB) (uid : UserId) (coins : Int) (t : String)
    (ht : truthy uid = true) (hc : 0 < coins)
    (hcap : (get_or_create_user uid t db).1.monthly_coin_redeemed + coins ≤ MAX_MONTHLY_COINS)
    (hover : (get_or_create_user uid t db).1.monthly_coin_earned -
      (get_or_create_user uid t db).1.monthly_coin_redeemed < coins) :
    (coin_redeem uid coins t db).1 = Except.ok ((coins : ℚ) / COINS_PER_DOLLAR) ∧
    ∀ a : Account, (uid, a) ∈ (get_or_create_user uid t db).2.users →
      (uid, { a with monthly_coin_redeemed := a.monthly_coin_redeemed + coins }) ∈
        (coin_redeem uid coins t db).2.users := by
  have hval : ¬ (truthy uid = false ∨ coins ≤ 0) := by
    rw [ht]
    simp only [Bool.true_eq_false, false_or]
    omega
  rw [coin_redeem]
  dsimp only
  rw [if_neg hval, if_neg (by omega)]
  refine ⟨rfl, fun a ha => ?_⟩
  refine List.mem_map.2 ⟨(uid, a), ha, ?_⟩
  rw [if_pos (truthy_sqlEq_self ht)]

/-- Witness for C3: redeem 7 coins on a fresh account with zero earned balance. -/
theorem c3_redeem_skips_balance_check_witness :
    (coin_redeem (some "u") 7 "d" initDB).1 = Except.ok (((7 : Int) : ℚ) / COINS_PER_DOLLAR) ∧
    ∀ a : Account, (some "u", a) ∈ (get_or_create_user (some "u") "d" initDB).2.users →
      (some "u", { a with monthly_coin_redeemed := a.monthly_coin_redeemed + 7 }) ∈
        (coin_redeem (some "u") 7 "d" initDB).2.users :=
  c3_redeem_skips_balance_check initDB (some "u") 7 "d" (by decide) (by decide)
    (by decide) (by decide)

/-! ### Claim C6 -/

/-- C6: Exchange rejects `usd ≤ 0` and `usd > 100` with InvalidRequest before any
store access: the whole database — accounts and redemption records alike — is
returned unchanged, whatever the account balances. -/
theorem c6_exchange_bounds_checked_before_mutation (db : DB) (uid : UserId) (usd : ℚ)
    (t n : String) (h : usd ≤ 0 ∨ 100 < usd) :
    coin_exchange uid usd t n db = (Except.error ApiError.invalidRequest, db) := by
  rw [coin_exchange]
  dsimp only
  rw [if_pos h]

/-- Witness for C6: Exchange of $200 on a fresh store is rejected, store intact. -/
theorem c6_exchange_bounds_checked_before_mutation_witness :
    coin_exchange (some "u") 200 "d" "t" initDB =
      (Except.error ApiError.invalidRequest, initDB) :=
  c6_exchange_bounds_checked_before_mutation initDB (some "u") 200 "d" "t"
    (Or.inr (by norm_num))

/-! ### Claim C10 -/

lemma updateUsers_none (f : Account → Account) (db : DB) :
    (updateUsers none f db).users = db.users := by
  simp [updateUsers, sqlEq_none_right]

/-- C10: Exchange never validates `user_id`.  With the id missing (SQL NULL) and
any in-range `usd`, the call is not rejected as InvalidRequest; instead
`get_or_create_user` inserts a fresh NULL-keyed zeroed account (NULL never matches
an existing key) and the handler proceeds to the balance and cap checks — whereas
Earn and Redeem reject a missing `user_id` up front, leaving the store untouched. -/
theorem c10_exchange_missing_user_id (db : DB) (usd : ℚ) (t n : String) (c : Int)
    (h0 : 0 < usd) (h1 : usd ≤ 100) :
    (coin_exchange none usd t n db).1 ≠ Except.error ApiError.invalidRequest ∧
    (coin_exchange none usd t n db).2.users = db.users ++ [(none, ⟨0, 0, t⟩)] ∧
    coin_earn none c t db = (Except.error ApiError.invalidRequest, db) ∧
    coin_redeem none c t db = (Except.error ApiError.invalidRequest, db) := by
  have hval : ¬ (usd ≤ 0 ∨ 100 < usd) := by
    intro h
    rcases h with h | h <;> linarith
  have husers : (get_or_create_user none t db).2.users = db.users ++ [(none, ⟨0, 0, t⟩)] := by
    rcases get_or_create_user_spec none t db with ⟨p, hp, hpu, _, _⟩ | ⟨_, _, h2⟩
    · rw [sqlEq_none_right] at hpu
      cases hpu
    · rw [h2]
  have hearn : coin_earn none c t db = (Except.error ApiError.invalidRequest, db) := by
    rw [coin_earn, if_pos (Or.inl (show truthy none = false from rfl))]
  have hredeem : coin_redeem none c t db = (Except.error ApiError.invalidRequest, db) := by
    rw [coin_redeem, if_pos (Or.inl (show truthy none = false from rfl))]
  rw [coin_exchange]
  dsimp only
  rw [if_neg hval]
  split
  · exact ⟨by simp, husers, hearn, hredeem⟩
  · split
    · exact ⟨by simp, husers, hearn, hredeem⟩
    · refine ⟨by simp, ?_, hearn, hredeem⟩
      have h3 : (updateUsers none
          (fun a => { a with monthly_coin_redeemed :=
            a.monthly_coin_redeemed + pyInt (usd * COINS_PER_DOLLAR) })
          (get_or_create_user none t db).2).users = db.users ++ [(none, ⟨0, 0, t⟩)] := by
        rw [updateUsers_none]
        exact husers
      exact h3

/-- Witness for C10: Exchange of $1 with no user id on a fresh store creates a
NULL-keyed account and fails only the balance check, never validation. -/
theorem c10_exchange_missing_user_id_witness :
    (coin_exchange none 1 "d" "t" initDB).1 ≠ Except.error ApiError.invalidRequest ∧
    (coin_exchange none 1 "d" "t" initDB).2.users = initDB.users ++ [(none, ⟨0, 0, "d"⟩)] ∧
    coin_earn none 9 "d" initDB = (Except.error ApiError.invalidRequest, initDB) ∧
    coin_redeem none 9 "d" initDB = (Except.error ApiError.invalidRequest, initDB) :=
  c10_exchange_missing_user_id initDB 1 "d" "t" 9 (by norm_num) (by norm_num)

/-! ### Claim C4 -/

lemma coin_earn_redemptions (uid : UserId) (c : Int) (t : String) (db : DB) :
    (coin_earn uid c t db).2.redemptions = db.redemptions := by
  rw [coin_earn]
  dsimp only
  split
  · rfl
  · rw [updateUsers_redemptions, get_or_create_user_redemptions]

lemma coin_redeem_redemptions (uid : UserId) (c : Int) (t : String) (db : DB) :
    (coin_redeem uid c t db).2.redemptions = db.redemptions := by
  rw [coin_redeem]
  dsimp only
  split
  · rfl
  · split
    · rw [get_or_create_user_redemptions]
    · rw [updateUsers_redemptions, get_or_create_user_redemptions]

lemma coin_status_redemptions (uid : UserId) (t : String) (db : DB) :
    (coin_status uid t db).2.redemptions = db.redemptions := by
  rw [coin_status]
  dsimp only
  split
  · rfl
  · rw [get_or_create_user_redemptions]

/-- A store whose single redemption record is already expired. -/
def expiredStore : DB :=
  ⟨[], [⟨1, some "u", 5, 1, "2024-01-01 00:00:00", Status.expired⟩], 2⟩

/-- C4 counterexample: the claim says an expired record is immutable under MarkPaid,
but `mark_redeem_paid` updates by id with no condition on the current status, so
MarkPaid on the id of an expired record flips its status back to paid. -/
theorem c4_counterexample_expired_record_marked_paid :
    expiredStore.redemptions.map RedemptionRequest.status = [Status.expired] ∧
    (mark_redeem_paid (some 1) expiredStore).1 = Except.ok 1 ∧
    (mark_redeem_paid (some 1) expiredStore).2.redemptions.map RedemptionRequest.status =
      [Status.paid] ∧
    Status.paid ≠ Status.expired := by
  refine ⟨by decide, rfl, by decide, by decide⟩

/-- C4 amended: paid records are immutable (no operation changes them), and the
only status transitions any operation performs are pending→paid (MarkPaid),
pending→expired (ExpireOld) and expired→paid (MarkPaid on an expired record's id);
Exchange only appends fresh pending records. -/
theorem c4_amended_status_transitions (op : Op) (db : DB) :
    (∀ r ∈ db.redemptions, r.status = Status.paid → r ∈ (applyOp db op).redemptions) ∧
    (∀ s ∈ (applyOp db op).redemptions,
      s ∈ db.redemptions ∨ s.status = Status.pending ∨
      (∃ r ∈ db.redemptions, r.status = Status.pending ∧ s = { r with status := Status.paid }) ∨
      (∃ r ∈ db.redemptions, r.status = Status.pending ∧ s = { r with status := Status.expired }) ∨
      (∃ r ∈ db.redemptions, r.status = Status.expired ∧ s = { r with status := Status.paid })) := by
  cases op with
  | earn uid c t =>
    have h := coin_earn_redemptions uid c t db
    constructor
    · intro r hr _
      show r ∈ (coin_earn uid c t db).2.redemptions
      rw [h]
      exact hr
    · intro s hs
      replace hs : s ∈ (coin_earn uid c t db).2.redemptions := hs
      rw [h] at hs
      exact Or.inl hs
  | redeem uid c t =>
    have h := coin_redeem_redemptions uid c t db
    constructor
    · intro r hr _
      show r ∈ (coin_redeem uid c t db).2.redemptions
      rw [h]
      exact hr
    · intro s hs
      replace hs : s ∈ (coin_redeem uid c t db).2.redemptions := hs
      rw [h] at hs
      exact Or.inl hs
  | statusQ uid t =>
    have h := coin_status_redemptions uid t db
    constructor
    · intro r hr _
      show r ∈ (coin_status uid t db).2.redemptions
      rw [h]
      exact hr
    · intro s hs
      replace hs : s ∈ (coin_status uid t db).2.redemptions := hs
      rw [h] at hs
      exact Or.inl hs
  | resetMonthly t =>
    exact ⟨fun r hr _ => hr, fun s hs => Or.inl hs⟩
  | exchange uid usd t n =>
    rw [show applyOp db (Op.exchange uid usd t n) = (coin_exchange uid usd t n db).2 from rfl]
    rw [coin_exchange]
    dsimp only
    split
    · exact ⟨fun r hr _ => hr, fun s hs => Or.inl hs⟩
    · split
      · refine ⟨fun r hr _ => ?_, fun s hs => ?_⟩
        · show r ∈ (get_or_create_user uid t db).2.redemptions
          rw [get_or_create_user_redemptions]
          exact hr
        · replace hs : s ∈ (get_or_create_user uid t db).2.redemptions := hs
          rw [get_or_create_user_redemptions] at hs
          exact Or.inl hs
      · split
        · refine ⟨fun r hr _ => ?_, fun s hs => ?_⟩
          · show r ∈ (get_or_create_user uid t db).2.redemptions
            rw [get_or_create_user_redemptions]
            exact hr
          · replace hs : s ∈ (get_or_create_user uid t db).2.redemptions := hs
            rw [get_or_create_user_redemptions] at hs
            exact Or.inl hs
        · have hrs : (updateUsers uid
              (fun a => { a with monthly_coin_redeemed :=
                a.monthly_coin_redeemed + pyInt (usd * COINS_PER_DOLLAR) })
              (get_or_create_user uid t db).2).redemptions = db.redemptions := by
            rw [updateUsers_redemptions, get_or_create_user_redemptions]
          refine ⟨fun r hr _ => ?_, fun s hs => ?_⟩
          · refine List.mem_append.2 (Or.inl ?_)
            rw [hrs]
            exact hr
          · replace hs : s ∈ (updateUsers uid
                (fun a => { a with monthly_coin_redeemed :=
                  a.monthly_coin_redeemed + pyInt (usd * COINS_PER_DOLLAR) })
                (get_or_create_user uid t db).2).redemptions ++
                [⟨(updateUsers uid
                    (fun a => { a with monthly_coin_redeemed :=
                      a.monthly_coin_redeemed + pyInt (usd * COINS_PER_DOLLAR) })
                    (get_or_create_user uid t db).2).nextId, uid,
                  pyInt (usd * COINS_PER_DOLLAR), usd, n, Status.pending⟩] := hs
            rcases List.mem_append.1 hs with hs | hs
            · rw [hrs] at hs
              exact Or.inl hs
            · cases List.mem_singleton.1 hs
              exact Or.inr (Or.inl rfl)
  | markPaid rid =>
    cases rid with
    | none => exact ⟨fun r hr _ => hr, fun s hs => Or.inl hs⟩
    | some i =>
      rw [show applyOp db (Op.markPaid (some i)) = (mark_redeem_paid (some i) db).2 from rfl]
      rw [mark_redeem_paid]
      dsimp only
      split
      · exact ⟨fun r hr _ => hr, fun s hs => Or.inl hs⟩
      · constructor
        · intro r hr hpaid
          refine List.mem_map.2 ⟨r, hr, ?_⟩
          split
          · obtain ⟨rid2, ru, rc, rq, rt, rs⟩ := r
            cases hpaid
            rfl
          · rfl
        · intro s hs
          rcases List.mem_map.1 hs with ⟨r, hr, heq⟩
          by_cases hid : r.id = i
          · rw [if_pos hid] at heq
            cases hst : r.status with
            | pending => exact Or.inr (Or.inr (Or.inl ⟨r, hr, hst, heq.symm⟩))
            | paid =>
              refine Or.inl ?_
              have : s = r := by
                rw [← heq]
                obtain ⟨rid2, ru, rc, rq, rt, rs⟩ := r
                cases hst
                rfl
              rw [this]
              exact hr
            | expired => exact Or.inr (Or.inr (Or.inr (Or.inr ⟨r, hr, hst, heq.symm⟩)))
          · rw [if_neg hid] at heq
            rw [← heq]
            exact Or.inl hr
  | expireOld cutoff =>
    constructor
    · intro r hr hpaid
      refine List.mem_map.2 ⟨r, hr, ?_⟩
      rw [if_neg]
      intro hc
      rw [hpaid] at hc
      cases hc.1
    · intro s hs
      rcases List.mem_map.1 hs with ⟨r, hr, heq⟩
      by_cases hc : r.status = Status.pending ∧ r.requested_at < cutoff
      · rw [if_pos hc] at heq
        exact Or.inr (Or.inr (Or.inr (Or.inl ⟨r, hr, hc.1, heq.symm⟩)))
      · rw [if_neg hc] at heq
        rw [← heq]
        exact Or.inl hr

/-- Witness for the amended C4: a paid record survives an ExpireOld sweep with a
future cutoff unchanged. -/
theorem c4_amended_status_transitions_witness :
    (⟨1, some "u", 5, 1, "2024-01-01 00:00:00", Status.paid⟩ : RedemptionRequest) ∈
      (applyOp ⟨[], [⟨1, some "u", 5, 1, "2024-01-01 00:00:00", Status.paid⟩], 2⟩
        (Op.expireOld "2099-01-01 00:00:00")).redemptions :=
  (c4_amended_status_transitions (Op.expireOld "2099-01-01 00:00:00")
      ⟨[], [⟨1, some "u", 5, 1, "2024-01-01 00:00:00", Status.paid⟩], 2⟩).1
    ⟨1, some "u", 5, 1, "2024-01-01 00:00:00", Status.paid⟩ (by decide) (by decide)

/-! ### Claim C9 -/

lemma map_self_of {α : Type} (l : List α) (f : α → α) (h : ∀ x ∈ l, f x = x) :
    l.map f = l := by
  have h2 : l.map f = l.map id := List.map_congr_left h
  rw [h2, List.map_id]

/-- C9 counterexample: the claim quantifies over every id with no matching record,
but the handler's Python truthiness check `if not redemption_id` rejects the id 0 —
which never matches a record, since AUTOINCREMENT ids start at 1 — with an
InvalidRequest-style error instead of reporting success. -/
theorem c9_counterexample_id_zero_errors :
    initDB.redemptions = [] ∧
    (mark_redeem_paid (some 0) initDB).1 = Except.error ApiError.missingId :=
  ⟨rfl, rfl⟩

/-- C9 amended: for every truthy id (nonzero, present), MarkPaid on an id matching
no record reports success and leaves the database — every record — unchanged, and
MarkPaid is idempotent: re-marking after a first MarkPaid returns success and the
same store state.  (An id of 0, or a missing id, is instead rejected up front.) -/
theorem c9_amended_markpaid_noop_and_idempotent (db : DB) (i : Int) (hi : i ≠ 0) :
    ((∀ r ∈ db.redemptions, r.id ≠ i) →
      mark_redeem_paid (some i) db = (Except.ok i, db)) ∧
    mark_redeem_paid (some i) (mark_redeem_paid (some i) db).2 =
      (Except.ok i, (mark_redeem_paid (some i) db).2) := by
  constructor
  · intro hno
    rw [mark_redeem_paid]
    dsimp only
    rw [if_neg hi]
    rw [map_self_of db.redemptions _ (fun r hr => if_neg (hno r hr))]
  · rw [mark_redeem_paid]
    dsimp only
    rw [if_neg hi]
    rw [mark_redeem_paid]
    dsimp only
    rw [if_neg hi]
    dsimp only
    rw [map_self_of (db.redemptions.map
        (fun r => if r.id = i then { r with status := Status.paid } else r)) _ ?_]
    intro x hx
    rcases List.mem_map.1 hx with ⟨r, hr, rfl⟩
    by_cases h : r.id = i
    · rw [if_pos h]
      dsimp only
      rw [if_pos h]
    · rw [if_neg h, if_neg h]

/-- Witness for the amended C9: id 5 matches nothing in a one-record store. -/
theorem c9_amended_markpaid_noop_and_idempotent_witness :
    mark_redeem_paid (some 5) ⟨[], [⟨1, some "u", 5, 1, "2024-01-01 00:00:00", Status.pending⟩], 2⟩ =
      (Except.ok 5, ⟨[], [⟨1, some "u", 5, 1, "2024-01-01 00:00:00", Status.pending⟩], 2⟩) :=
  (c9_amended_markpaid_noop_and_idempotent
      ⟨[], [⟨1, some "u", 5, 1, "2024-01-01 00:00:00", Status.pending⟩], 2⟩ 5 (by decide)).1
    (by decide)

/-! ### Claim C8 -/

/-- C8 counterexample: Exchange of $0.0000001 passes `0 < usd ≤ 100`, computes
`coins_required = int(0.1) = 0`, passes the balance check `0 > 0 = False` even on a
fresh zero-balance account, and inserts a record with `coins_redeemed = 0` — not a
positive integer as the claim requires. -/
theorem c8_counterexample_zero_coin_record :
    (coin_exchange (some "u") (1 / 10000000) "d" "t" initDB).1 =
      Except.ok ((1 : ℚ) / 10000000) ∧
    (coin_exchange (some "u") (1 / 10000000) "d" "t" initDB).2.redemptions.map
      RedemptionRequest.coins_redeemed = [0] := by
  rw [coin_exchange]
  dsimp only
  rw [show pyInt ((1 / 10000000 : ℚ) * COINS_PER_DOLLAR) = 0 from by
    norm_num [pyInt, COINS_PER_DOLLAR]]
  rw [if_neg (by norm_num)]
  rw [if_neg (by decide), if_neg (by decide)]
  exact ⟨rfl, rfl⟩

/-- Every stored redemption record has a non-negative coin amount and a positive
USD value. -/
def RecOK (db : DB) : Prop :=
  ∀ r ∈ db.redemptions, 0 ≤ r.coins_redeemed ∧ 0 < r.usd_value

lemma RecOK.applyOp_recok (op : Op) {db : DB} (h : RecOK db) : RecOK (applyOp db op) := by
  cases op with
  | earn uid c t =>
    intro r hr
    replace hr : r ∈ (coin_earn uid c t db).2.redemptions := hr
    rw [coin_earn_redemptions] at hr
    exact h r hr
  | redeem uid c t =>
    intro r hr
    replace hr : r ∈ (coin_redeem uid c t db).2.redemptions := hr
    rw [coin_redeem_redemptions] at hr
    exact h r hr
  | statusQ uid t =>
    intro r hr
    replace hr : r ∈ (coin_status uid t db).2.redemptions := hr
    rw [coin_status_redemptions] at hr
    exact h r hr
  | resetMonthly t =>
    exact h
  | markPaid rid =>
    cases rid with
    | none => exact h
    | some i =>
      show RecOK (mark_redeem_paid (some i) db).2
      rw [mark_redeem_paid]
      dsimp only
      split
      · exact h
      · intro r hr
        rcases List.mem_map.1 hr with ⟨s, hs, heq⟩
        have h2 := h s hs
        rw [← heq]
        split
        · exact h2
        · exact h2
  | expireOld cutoff =>
    intro r hr
    rcases List.mem_map.1 hr with ⟨s, hs, heq⟩
    have h2 := h s hs
    rw [← heq]
    split
    · exact h2
    · exact h2
  | exchange uid usd t n =>
    show RecOK (coin_exchange uid usd t n db).2
    rw [coin_exchange]
    dsimp only
    split
    · exact h
    · rename_i hval
      have husd : 0 < usd := lt_of_not_le (fun hc => hval (Or.inl hc))
      split
      · intro r hr
        replace hr : r ∈ (get_or_create_user uid t db).2.redemptions := hr
        rw [get_or_create_user_redemptions] at hr
        exact h r hr
      · split
        · intro r hr
          replace hr : r ∈ (get_or_create_user uid t db).2.redemptions := hr
          rw [get_or_create_user_redemptions] at hr
          exact h r hr
        · intro r hr
          replace hr : r ∈ (updateUsers uid
              (fun a => { a with monthly_coin_redeemed :=
                a.monthly_coin_redeemed + pyInt (usd * COINS_PER_DOLLAR) })
              (get_or_create_user uid t db).2).redemptions ++
              [⟨(updateUsers uid
                  (fun a => { a with monthly_coin_redeemed :=
                    a.monthly_coin_redeemed + pyInt (usd * COINS_PER_DOLLAR) })
                  (get_or_create_user uid t db).2).nextId, uid,
                pyInt (usd * COINS_PER_DOLLAR), usd, n, Status.pending⟩] := hr
          rcases List.mem_append.1 hr with hr | hr
          · rw [updateUsers_redemptions, get_or_create_user_redemptions] at hr
            exact h r hr
          · cases List.mem_singleton.1 hr
            exact ⟨pyInt_nonneg (mul_pos husd (by norm_num [COINS_PER_DOLLAR])), husd⟩

/-- C8 amended: every record ever created (Exchange is the only creator) has a
*non-negative* `coins_redeemed` — zero is possible when `usd × 10⁶ < 1`, so the
claimed strict positivity fails — and a strictly positive `usd_value`. -/
theorem c8_amended_record_fields (ops : List Op) :
    ∀ r ∈ (run ops).redemptions, 0 ≤ r.coins_redeemed ∧ 0 < r.usd_value := by
  show RecOK (ops.foldl applyOp initDB)
  have h0 : RecOK initDB := fun r hr => by cases hr
  revert h0
  generalize initDB = db
  induction ops generalizing db with
  | nil => exact fun h => h
  | cons op ops ih => exact fun h => ih _ (h.applyOp_recok op)

/-- A concrete two-request run: earn 2,000,000 coins, then exchange $1. -/
lemma run_earn_exchange_example :
    run [Op.earn (some "u") 2000000 "d", Op.exchange (some "u") 1 "d" "t"] =
      ⟨[(some "u", ⟨2000000, 1000000, "d"⟩)],
        [⟨1, some "u", 1000000, 1, "t", Status.pending⟩], 2⟩ := by
  show applyOp (applyOp initDB (Op.earn (some "u") 2000000 "d"))
      (Op.exchange (some "u") 1 "d" "t") = _
  rw [show applyOp initDB (Op.earn (some "u") 2000000 "d") =
    (⟨[(some "u", ⟨2000000, 0, "d"⟩)], [], 1⟩ : DB) from by decide]
  show (coin_exchange (some "u") 1 "d" "t" ⟨[(some "u", ⟨2000000, 0, "d"⟩)], [], 1⟩).2 = _
  rw [coin_exchange]
  dsimp only
  rw [show pyInt ((1 : ℚ) * COINS_PER_DOLLAR) = 1000000 from by
    norm_num [pyInt, COINS_PER_DOLLAR]]
  rw [if_neg (by norm_num)]
  rw [if_neg (by decide), if_neg (by decide)]
  decide

/-- Witness for the amended C8 on the record created by that run. -/
theorem c8_amended_record_fields_witness :
    0 ≤ (⟨1, some "u", 1000000, 1, "t", Status.pending⟩ : RedemptionRequest).coins_redeemed ∧
    0 < (⟨1, some "u", 1000000, 1, "t", Status.pending⟩ : RedemptionRequest).usd_value :=
  c8_amended_record_fields [Op.earn (some "u") 2000000 "d", Op.exchange (some "u") 1 "d" "t"]
    ⟨1, some "u", 1000000, 1, "t", Status.pending⟩
    (by rw [run_earn_exchange_example]; exact List.mem_singleton.2 rfl)

/-! ### Claim C7 -/

lemma splitCh_not_mem {c : Char} {l : List Char} (h : c ∉ l) : splitCh c l = [l] := by
  induction l with
  | nil => rfl
  | cons x xs ih =>
    rw [splitCh]
    rw [if_neg (fun hx : x = c => h (hx ▸ List.mem_cons_self x xs))]
    rw [ih (fun hx => h (List.mem_cons_of_mem x hx))]
    rfl

lemma splitCh_append {c : Char} {l1 l2 : List Char} (h : c ∉ l1) :
    splitCh c (l1 ++ c :: l2) = l1 :: splitCh c l2 := by
  induction l1 with
  | nil =>
    rw [List.nil_append, splitCh]
    rw [if_pos rfl]
  | cons x xs ih =>
    rw [List.cons_append, splitCh]
    rw [if_neg (fun hx : x = c => h (hx ▸ List.mem_cons_self x xs))]
    rw [ih (fun hx => h (List.mem_cons_of_mem x hx))]
    rfl

lemma mem_joinCh {x c : Char} {L : List (List Char)} (h : x ∈ joinCh c L) :
    x = c ∨ ∃ f ∈ L, x ∈ f := by
  induction L with
  | nil => cases h
  | cons f fs ih =>
    cases fs with
    | nil => exact Or.inr ⟨f, List.mem_cons_self f [], h⟩
    | cons g gs =>
      rw [joinCh] at h
      rcases List.mem_append.1 h with h | h
      · exact Or.inr ⟨f, List.mem_cons_self f _, h⟩
      · rcases List.mem_cons.1 h with rfl | h
        · exact Or.inl rfl
        · rcases ih h with h | ⟨f2, hf2, hx⟩
          · exact Or.inl h
          · exact Or.inr ⟨f2, List.mem_cons_of_mem f hf2, hx⟩

lemma splitCh_joinCh {c : Char} {L : List (List Char)} (hne : L ≠ [])
    (h : ∀ f ∈ L, c ∉ f) : splitCh c (joinCh c L) = L := by
  induction L with
  | nil => cases hne rfl
  | cons f fs ih =>
    cases fs with
    | nil => exact splitCh_not_mem (h f (List.mem_cons_self f []))
    | cons g gs =>
      rw [joinCh, splitCh_append (h f (List.mem_cons_self f _))]
      rw [ih (by simp) (fun z hz => h z (List.mem_cons_of_mem f hz))]

lemma splitCh_flatten_rows {L : List (List Char)} (h : ∀ row ∈ L, '\n' ∉ row) :
    splitCh '\n' (L.map (fun row => row ++ ['\n'])).flatten = L ++ [[]] := by
  induction L with
  | nil => rfl
  | cons row rest ih =>
    rw [List.map_cons, List.flatten_cons, List.append_assoc, List.singleton_append]
    rw [splitCh_append (h row (List.mem_cons_self row rest))]
    rw [ih (fun x hx => h x (List.mem_cons_of_mem row hx))]
    rfl

/-- C7 amended: parsing the export (split on newlines after the header, split each
line on commas) reconstructs exactly the rendered rows of the store, in creation
order, provided no rendered field contains a comma or a newline — user ids that do
contain a comma break the round trip, as the counterexample shows. -/
theorem c7_amended_csv_roundtrip (fr : ℚ → String) (db : DB)
    (H : ∀ r ∈ db.redemptions, ∀ f ∈ rowFields fr r,
      ¬ ',' ∈ f.data ∧ ¬ '\n' ∈ f.data) :
    parseCSV (export_csv fr db) = db.redemptions.map (rowFields fr) := by
  have hnl : ∀ row ∈ db.redemptions.map
      (fun r => joinCh ',' ((rowFields fr r).map String.data)), '\n' ∉ row := by
    intro row hrow hmem
    rcases List.mem_map.1 hrow with ⟨r, hr, rfl⟩
    rcases mem_joinCh hmem with h | ⟨f, hf, hx⟩
    · cases h
    · rcases List.mem_map.1 hf with ⟨f0, hf0, rfl⟩
      exact (H r hr f0 hf0).2 hx
  have hdata : (export_csv fr db).data =
      csvHeader.data ++ '\n' ::
        (db.redemptions.map
          (fun r => joinCh ',' ((rowFields fr r).map String.data) ++ ['\n'])).flatten := rfl
  rw [parseCSV, hdata]
  rw [splitCh_append (by decide)]
  rw [List.drop_one, List.tail_cons]
  have hmapmap : (db.redemptions.map
      (fun r => joinCh ',' ((rowFields fr r).map String.data) ++ ['\n'])) =
      ((db.redemptions.map (fun r => joinCh ',' ((rowFields fr r).map String.data))).map
        (fun row => row ++ ['\n'])) := by
    rw [List.map_map]
    rfl
  rw [hmapmap, splitCh_flatten_rows hnl]
  rw [List.dropLast_concat]
  rw [List.map_map]
  refine List.map_congr_left (fun r hr => ?_)
  show ((splitCh ',' (joinCh ',' ((rowFields fr r).map String.data))).map String.mk) = _
  rw [splitCh_joinCh (by rw [rowFields]; simp) ?_]
  · rw [List.map_map]
    exact map_self_of _ _ (fun f hf => rfl)
  · intro f hf
    rcases List.mem_map.1 hf with ⟨f0, hf0, rfl⟩
    exact (H r hr f0 hf0).1

/-- A one-record store whose user id contains a comma, and a constant rendering of
the REAL column. -/
def commaStore : DB :=
  ⟨[], [⟨1, some "a,b", 5, 1, "2024-01-01 00:00:00", Status.pending⟩], 2⟩

/-- A fixed rendering of the REAL `usd_value` column for the concrete examples. -/
def frConst : ℚ → String := fun _ => "1.0"

/-- C7 counterexample: with a user id containing a comma, parsing the export yields
a seven-field row, not the record's six fields — the round trip fails, contrary to
the claim that it holds for all field values including comma-containing user ids. -/
theorem c7_counterexample_comma_in_user_id :
    parseCSV (export_csv frConst commaStore) =
      [["1", "a", "b", "5", "1.0", "2024-01-01 00:00:00", "pending"]] ∧
    commaStore.redemptions.map (rowFields frConst) =
      [["1", "a,b", "5", "1.0", "2024-01-01 00:00:00", "pending"]] ∧
    parseCSV (export_csv frConst commaStore) ≠
      commaStore.redemptions.map (rowFields frConst) := by
  refine ⟨by decide, by decide, by decide⟩

/-- A two-record comma-free store exercising both NULL user ids and both terminal
statuses. -/
def cleanStore : DB :=
  ⟨[], [⟨1, some "ab", 5, 1, "2024-01-01 00:00:00", Status.pending⟩,
        ⟨2, none, 7, 2, "2024-01-02 00:00:00", Status.paid⟩], 3⟩

/-- Witness for the amended C7 on a concrete comma-free store. -/
theorem c7_amended_csv_roundtrip_witness :
    parseCSV (export_csv frConst cleanStore) = cleanStore.redemptions.map (rowFields frConst) :=
  c7_amended_csv_roundtrip frConst cleanStore (by decide)

end FlipFactory
